import Mathlib

/-!
Shallow embedding of the FastAPI CRUD application (main.py, auth.py,
models.py, services.py) and proofs of the specification claims.

Modelling conventions:
* The database is the list of rows of the single `items` table, in rowid
  (insertion) order.  SQLite assigns a new rowid one larger than the largest
  rowid in use (1 for an empty table); `newRowid` models this.
* Column values that are nullable at the SQL level are `Option`s.  `name` and
  `price` are declared `nullable=False` in models.py; the NOT NULL check is
  performed by the database engine when a flush/commit writes the row, which
  `update_item` models by refusing (HTTP 500, IntegrityError escaping the
  handler) any update whose resulting row has a null `name` or `price`,
  leaving the table unchanged (the failed transaction is rolled back when the
  session is closed by `get_db`).
* Python floats are modelled as rationals.
* A Pydantic `ItemUpdate` body distinguishes an absent field from a field
  explicitly set to null (`model_dump(exclude_unset=True)`), hence the
  `Option (Option _)` fields: the outer layer is presence in the request
  body, the inner layer is SQL nullability of the value.
* `.offset(skip)` / `.limit(limit)` compile to SQL `LIMIT limit OFFSET skip`;
  SQLite treats a negative OFFSET as 0 and a negative LIMIT as "no limit".
  `Int.toNat` gives exactly the negative-offset clamp.
-/

/-- Row of the `items` table (models.py `Item`): id (INTEGER PRIMARY KEY),
name (NOT NULL), description (nullable), price (NOT NULL), category
(nullable). -/
structure Item where
  id : Int
  name : Option String
  description : Option String
  price : Option ℚ
  category : Option String
deriving DecidableEq

/-- The items table, in rowid (insertion) order. -/
abbrev DB : Type := List Item

/-- Body schema for POST /items (main.py `ItemCreate`): name and price
required, description optional with default null. -/
structure ItemCreate where
  name : String
  description : Option String
  price : ℚ
deriving DecidableEq

/-- Body schema for PATCH /items/{id} (main.py `ItemUpdate`): every field
optional; a field may be absent (outer `none`) or present with a possibly
null value (this is what `model_dump(exclude_unset=True)` distinguishes). -/
structure ItemUpdate where
  name : Option (Option String)
  description : Option (Option String)
  price : Option (Option ℚ)
deriving DecidableEq

/-- JSON object produced by main.py `item_to_dict`: the four keys id, name,
description, price (category is not serialized). -/
structure ItemDict where
  id : Int
  name : Option String
  description : Option String
  price : Option ℚ
deriving DecidableEq

/-- Convert Item ORM row to JSON-serializable dict (main.py `item_to_dict`). -/
def item_to_dict (row : Item) : ItemDict :=
  { id := row.id, name := row.name, description := row.description, price := row.price }

/-- HTTP response, restricted to the parts the claims talk about: status
code, list body (GET /items), object body (single-item endpoints), and the
`detail` field of error responses. -/
structure Response where
  status : Nat
  items : List ItemDict := []
  item : Option ItemDict := none
  detail : Option String := none
deriving DecidableEq

/-- Error response with a detail message (HTTPException / framework errors). -/
def errResp (code : Nat) (d : String) : Response :=
  { status := code, detail := some d }

/-- Primary-key lookup `db.get(Item, item_id)`: the row whose id equals
`item_id` (ids are unique, the primary key; on a list we take the first
match, consistent with SQL). -/
def pkGet (item_id : Int) (db : DB) : Option Item :=
  List.find? (fun r => decide (r.id = item_id)) db

/-- Rowid SQLite assigns to a newly inserted row: one larger than the
largest rowid in use, or 1 when the table is empty. -/
def newRowid (db : DB) : Int :=
  match db.map Item.id with
  | [] => 1
  | x :: xs => xs.foldl max x + 1

/-- GET /items handler (main.py `list_items`):
`db.query(Item).offset(skip).limit(limit).all()`, serialized.  SQLite
clamps a negative OFFSET to 0 (`Int.toNat`) and treats a negative LIMIT as
no limit. -/
def list_items (skip limit : Int) (db : DB) : Response :=
  let rows := List.drop skip.toNat db
  let rows := if limit < 0 then rows else rows.take limit.toNat
  { status := 200, items := rows.map item_to_dict }

/-- GET /items with both query parameters left at their declared defaults
`skip: int = 0, limit: int = 10` (main.py `list_items` signature). -/
def list_items_default (db : DB) : Response :=
  list_items 0 10 db

/-- GET /items/{item_id} handler (main.py `get_item`). -/
def get_item (item_id : Int) (db : DB) : Response :=
  match pkGet item_id db with
  | none => errResp 404 "Item not found"
  | some row => { status := 200, item := some (item_to_dict row) }

/-- POST /items handler (main.py `create_item`): insert a row built from the
validated body (category is never set, so it is null), commit, return the
refreshed row as a dict with status 201. -/
def create_item (item : ItemCreate) (db : DB) : DB × Response :=
  let row : Item :=
    { id := newRowid db, name := some item.name, description := item.description,
      price := some item.price, category := none }
  (db ++ [row], { status := 201, item := some (item_to_dict row) })

/-- Apply `for field, value in item.model_dump(exclude_unset=True).items():
setattr(row, field, value)` — each field present in the request body
overwrites the row's column, absent fields are untouched. -/
def applyUpdate (item : ItemUpdate) (row : Item) : Item :=
  let row := match item.name with
    | none => row
    | some v => { row with name := v }
  let row := match item.description with
    | none => row
    | some v => { row with description := v }
  match item.price with
  | none => row
  | some v => { row with price := v }

/-- Replace the (first) row with the given id. -/
def setRow (item_id : Int) (row : Item) : DB → DB
  | [] => []
  | r :: rs => if r.id = item_id then row :: rs else r :: setRow item_id row rs

/-- PATCH /items/{item_id} handler (main.py `update_item`): 404 when the id
is missing; otherwise apply exactly the fields present in the body and
commit.  When the resulting row has a null `name` or `price` the commit
violates a NOT NULL constraint: the IntegrityError escapes the handler
(HTTP 500) and the rolled-back transaction leaves the table unchanged. -/
def update_item (item_id : Int) (item : ItemUpdate) (db : DB) : DB × Response :=
  match pkGet item_id db with
  | none => (db, errResp 404 "Item not found")
  | some row =>
    let row' := applyUpdate item row
    if row'.name = none ∨ row'.price = none then
      (db, errResp 500 "Internal Server Error")
    else
      (setRow item_id row' db, { status := 200, item := some (item_to_dict row') })

/-- DELETE /items/{item_id} handler body (main.py `delete_item`), reached
only after the `verify_api_key` dependency succeeds: 404 when the id is
missing, otherwise delete the row and return 204 with no body. -/
def delete_item (item_id : Int) (db : DB) : DB × Response :=
  match pkGet item_id db with
  | none => (db, errResp 404 "Item not found")
  | some _ => (db.eraseP (fun r => decide (r.id = item_id)), { status := 204 })

/-- Dependency that verifies the API key from the X-API-Key header
(auth.py `verify_api_key`): 401 when the header is missing or differs from
the configured API_KEY; otherwise the key is returned. -/
def verify_api_key (api_key_env : String) (x_api_key : Option String) : Except Nat String :=
  if x_api_key = none ∨ x_api_key ≠ some api_key_env then
    Except.error 401
  else
    Except.ok (x_api_key.getD "")

/-- One HTTP request to the application.  Body-carrying requests hold
`none` when the raw body fails Pydantic validation (FastAPI then answers
422 before the handler runs). -/
inductive Request where
  | root
  | health
  | listItems (skip limit : Int)
  | getItem (item_id : Int)
  | createItem (body : Option ItemCreate)
  | updateItem (item_id : Int) (body : Option ItemUpdate)
  | deleteItem (item_id : Int)
deriving DecidableEq

/-- Which endpoints declare the `verify_api_key` dependency: only
DELETE /items/{id} does (main.py line 98). -/
def usesAuth : Request → Bool
  | .deleteItem _ => true
  | _ => false

/-- The application: dispatch one request against the table.
`api_key_env` is the configured API_KEY environment value, `hdr` the
request's X-API-Key header (only the DELETE route has the auth
dependency; no other handler receives the header).  Returns the table
after the request together with the response. -/
def handle (api_key_env : String) (req : Request) (hdr : Option String) (db : DB) :
    DB × Response :=
  match req with
  | .root => (db, { status := 200 })
  | .health => (db, { status := 200 })
  | .listItems skip limit => (db, list_items skip limit db)
  | .getItem i => (db, get_item i db)
  | .createItem none => (db, errResp 422 "validation error")
  | .createItem (some b) => create_item b db
  | .updateItem _ none => (db, errResp 422 "validation error")
  | .updateItem i (some b) => update_item i b db
  | .deleteItem i =>
    match verify_api_key api_key_env hdr with
    | .error _ => (db, errResp 401 "Invalid or missing API key")
    | .ok _ => delete_item i db

/-- Run a sequence of requests (each with its X-API-Key header) from a
starting table, threading the table through. -/
def run (api_key_env : String) (reqs : List (Request × Option String)) (db : DB) : DB :=
  match reqs with
  | [] => db
  | (req, hdr) :: rest => run api_key_env rest (handle api_key_env req hdr db).1

/-- Every stored row satisfies the NOT NULL constraints of models.py:
name and price are non-null. -/
def ValidDB (db : DB) : Prop :=
  ∀ r ∈ db, r.name ≠ none ∧ r.price ≠ none

instance : DecidablePred ValidDB := fun db =>
  inferInstanceAs (Decidable (∀ r ∈ db, r.name ≠ none ∧ r.price ≠ none))

instance {ε α : Type} [DecidableEq ε] [DecidableEq α] : DecidableEq (Except ε α) := fun a b =>
  match a, b with
  | .error e, .error f =>
    if h : e = f then .isTrue (by rw [h]) else .isFalse (fun hh => by cases hh; exact h rfl)
  | .ok x, .ok y =>
    if h : x = y then .isTrue (by rw [h]) else .isFalse (fun hh => by cases hh; exact h rfl)
  | .error _, .ok _ => .isFalse (fun hh => by cases hh)
  | .ok _, .error _ => .isFalse (fun hh => by cases hh)

/-- Result of `ItemService.get_stats` (services.py). -/
structure Stats where
  total_items : Nat
  average_price : ℚ
  min_price : Option ℚ
  max_price : Option ℚ
deriving DecidableEq

/-- The non-null values of the `price` column (SQL aggregates skip NULLs). -/
def colPrices (db : DB) : List ℚ :=
  db.filterMap Item.price

/-- `db.query(func.avg(Item.price)).scalar()`: NULL on an empty column,
otherwise the arithmetic mean of the non-null values. -/
def sqlAvg (db : DB) : Option ℚ :=
  match colPrices db with
  | [] => none
  | p :: ps => some ((p :: ps).sum / (p :: ps).length)

/-- `db.query(func.min(Item.price)).scalar()`. -/
def sqlMin (db : DB) : Option ℚ :=
  match colPrices db with
  | [] => none
  | p :: ps => some (ps.foldl min p)

/-- `db.query(func.max(Item.price)).scalar()`. -/
def sqlMax (db : DB) : Option ℚ :=
  match colPrices db with
  | [] => none
  | p :: ps => some (ps.foldl max p)

/-- Python `round` to an integer: round-half-to-even. -/
def roundHalfEven (x : ℚ) : Int :=
  if x - ⌊x⌋ < 1/2 then ⌊x⌋
  else if 1/2 < x - ⌊x⌋ then ⌊x⌋ + 1
  else if ⌊x⌋ % 2 = 0 then ⌊x⌋ else ⌊x⌋ + 1

/-- Python `round(x, 2)`: round to two decimal places, ties to even. -/
def roundTo2 (x : ℚ) : ℚ :=
  (roundHalfEven (x * 100) : ℚ) / 100

/-- `ItemService.get_stats` (services.py): count the rows; zero rows give
the special dict; otherwise query avg/min/max of the price column and
return `round(float(avg), 2)`, `float(min)`, `float(max)`.  `float(None)`
would raise a TypeError, modelled as the error case (unreachable when every
row has a non-null price). -/
def get_stats (db : DB) : Except String Stats :=
  if db.length = 0 then
    Except.ok { total_items := 0, average_price := 0, min_price := none, max_price := none }
  else
    match sqlAvg db, sqlMin db, sqlMax db with
    | some a, some mn, some mx =>
      Except.ok { total_items := db.length, average_price := roundTo2 a,
                  min_price := some mn, max_price := some mx }
    | _, _, _ => Except.error "TypeError"

/-- Clamp one bound of a Python slice `lst[a:b]` to an index of a list of
length `n` (negative indices count from the end). -/
def pySliceIdx (n : Nat) (i : Int) : Nat :=
  if i < 0 then ((n : Int) + i).toNat else min i.toNat n

/-- Python list slice `lst[a:b]`.  This is the comparison definition for the
slice the specification describes (`items[skip : skip+limit]`); it is built
from the spec's words, not from the application code. -/
def pySlice (a b : Int) (l : List α) : List α :=
  (l.take (pySliceIdx l.length b)).drop (pySliceIdx l.length a)

/-- Concrete sample rows used by witnesses and counterexamples. -/
def obj1 : Item := { id := 1, name := some "A", description := none, price := some 1, category := none }

/-- Second sample row. -/
def obj2 : Item := { id := 2, name := some "B", description := some "d", price := some 2, category := none }

/-- Third sample row. -/
def obj3 : Item := { id := 3, name := some "C", description := none, price := some 2, category := none }

/-- Sample table with prices 1, 2, 2 (exact average 5/3). -/
def dbA : DB := [obj1, obj2, obj3]

/-- Sample table with eleven rows, for the default-pagination witness. -/
def dbBig : DB :=
  (List.range 11).map fun n =>
    { id := (n : Int) + 1, name := some "X", description := none, price := some 1, category := none }

/-! Helper lemmas. -/

lemma le_foldl_max {α : Type} [LinearOrder α] (xs : List α) (a : α) :
    a ≤ xs.foldl max a := by
  induction xs generalizing a with
  | nil => exact le_refl a
  | cons x xs ih => exact le_trans (le_max_left a x) (ih (max a x))

lemma mem_le_foldl_max {α : Type} [LinearOrder α] (xs : List α) (a x : α)
    (hx : x ∈ xs) : x ≤ xs.foldl max a := by
  induction xs generalizing a with
  | nil => cases hx
  | cons y ys ih =>
    rcases List.mem_cons.mp hx with h | h
    · subst h
      exact le_trans (le_max_right a x) (le_foldl_max ys (max a x))
    · exact ih (max a y) h

lemma foldl_min_le_init {α : Type} [LinearOrder α] (xs : List α) (a : α) :
    xs.foldl min a ≤ a := by
  induction xs generalizing a with
  | nil => exact le_refl a
  | cons x xs ih => exact le_trans (ih (min a x)) (min_le_left a x)

lemma foldl_min_le_mem {α : Type} [LinearOrder α] (xs : List α) (a x : α)
    (hx : x ∈ xs) : xs.foldl min a ≤ x := by
  induction xs generalizing a with
  | nil => cases hx
  | cons y ys ih =>
    rcases List.mem_cons.mp hx with h | h
    · subst h
      exact le_trans (foldl_min_le_init ys (min a x)) (min_le_right a x)
    · exact ih (min a y) h

lemma foldl_max_mem {α : Type} [LinearOrder α] (xs : List α) (a : α) :
    xs.foldl max a ∈ a :: xs := by
  induction xs generalizing a with
  | nil => exact List.mem_singleton.mpr rfl
  | cons x xs ih =>
    have hfold : List.foldl max a (x :: xs) = List.foldl max (max a x) xs := by
      rw [List.foldl_cons]
    rcases List.mem_cons.mp (ih (max a x)) with h | h
    · rw [hfold, h]
      rcases max_choice a x with hm | hm <;> rw [hm]
      · exact List.mem_cons_self _ _
      · exact List.mem_cons.mpr (Or.inr (List.mem_cons_self _ _))
    · rw [hfold]
      exact List.mem_cons.mpr (Or.inr (List.mem_cons.mpr (Or.inr h)))

lemma foldl_min_mem {α : Type} [LinearOrder α] (xs : List α) (a : α) :
    xs.foldl min a ∈ a :: xs := by
  induction xs generalizing a with
  | nil => exact List.mem_singleton.mpr rfl
  | cons x xs ih =>
    have hfold : List.foldl min a (x :: xs) = List.foldl min (min a x) xs := by
      rw [List.foldl_cons]
    rcases List.mem_cons.mp (ih (min a x)) with h | h
    · rw [hfold, h]
      rcases min_choice a x with hm | hm <;> rw [hm]
      · exact List.mem_cons_self _ _
      · exact List.mem_cons.mpr (Or.inr (List.mem_cons_self _ _))
    · rw [hfold]
      exact List.mem_cons.mpr (Or.inr (List.mem_cons.mpr (Or.inr h)))

lemma foldl_max_le {α : Type} [LinearOrder α] (xs : List α) (a x : α)
    (hx : x ∈ a :: xs) : x ≤ xs.foldl max a := by
  rcases List.mem_cons.mp hx with h | h
  · subst h; exact le_foldl_max xs x
  · exact mem_le_foldl_max xs a x h

lemma foldl_min_le {α : Type} [LinearOrder α] (xs : List α) (a x : α)
    (hx : x ∈ a :: xs) : xs.foldl min a ≤ x := by
  rcases List.mem_cons.mp hx with h | h
  · subst h; exact foldl_min_le_init xs x
  · exact foldl_min_le_mem xs a x h

lemma id_lt_newRowid (db : DB) (r : Item) (hr : r ∈ db) : r.id < newRowid db := by
  have hmem : r.id ∈ db.map Item.id := List.mem_map_of_mem Item.id hr
  rw [newRowid]
  cases hmap : db.map Item.id with
  | nil => rw [hmap] at hmem; cases hmem
  | cons x xs =>
    rw [hmap] at hmem
    have hle : r.id ≤ xs.foldl max x := foldl_max_le xs x r.id hmem
    show r.id < xs.foldl max x + 1
    omega

lemma pkGet_eq_id {item_id : Int} {db : DB} {row : Item}
    (h : pkGet item_id db = some row) : row.id = item_id := by
  have := List.find?_some h
  simpa using this

lemma pkGet_append_new (db : DB) (row : Item) (hid : row.id = newRowid db) :
    pkGet (newRowid db) (db ++ [row]) = some row := by
  rw [pkGet, List.find?_append]
  have hnone : List.find? (fun r => decide (r.id = newRowid db)) db = none := by
    rw [List.find?_eq_none]
    intro x hx
    simp only [decide_eq_true_eq]
    exact ne_of_lt (id_lt_newRowid db x hx)
  rw [hnone]
  simp [hid]

lemma pkGet_setRow_self {item_id : Int} {db : DB} {row : Item} (row' : Item)
    (h : pkGet item_id db = some row) (hid : row'.id = item_id) :
    pkGet item_id (setRow item_id row' db) = some row' := by
  induction db with
  | nil => simp [pkGet] at h
  | cons r rs ih =>
    by_cases hr : r.id = item_id
    · simp [setRow, hr, pkGet, List.find?_cons, hid]
    · rw [pkGet, List.find?_cons] at h
      rw [setRow, if_neg hr, pkGet, List.find?_cons]
      simp only [hr, decide_False] at h ⊢
      exact ih h

lemma mem_setRow {item_id : Int} {db : DB} {row' r : Item}
    (h : r ∈ setRow item_id row' db) : r ∈ db ∨ r = row' := by
  induction db with
  | nil => simp [setRow] at h
  | cons x xs ih =>
    rw [setRow] at h
    by_cases hx : x.id = item_id
    · rw [if_pos hx] at h
      rcases List.mem_cons.mp h with h | h
      · exact Or.inr h
      · exact Or.inl (List.mem_cons.mpr (Or.inr h))
    · rw [if_neg hx] at h
      rcases List.mem_cons.mp h with h | h
      · exact Or.inl (List.mem_cons.mpr (Or.inl h))
      · rcases ih h with h | h
        · exact Or.inl (List.mem_cons.mpr (Or.inr h))
        · exact Or.inr h

lemma applyUpdate_id (b : ItemUpdate) (r : Item) : (applyUpdate b r).id = r.id := by
  obtain ⟨n, d, p⟩ := b
  cases n <;> cases d <;> cases p <;> rfl

lemma applyUpdate_category (b : ItemUpdate) (r : Item) :
    (applyUpdate b r).category = r.category := by
  obtain ⟨n, d, p⟩ := b
  cases n <;> cases d <;> cases p <;> rfl

lemma applyUpdate_name_absent (b : ItemUpdate) (r : Item) (h : b.name = none) :
    (applyUpdate b r).name = r.name := by
  obtain ⟨n, d, p⟩ := b
  simp only at h
  subst h
  cases d <;> cases p <;> rfl

lemma applyUpdate_name_present (b : ItemUpdate) (r : Item) (v : Option String)
    (h : b.name = some v) : (applyUpdate b r).name = v := by
  obtain ⟨n, d, p⟩ := b
  simp only at h
  subst h
  cases d <;> cases p <;> rfl

lemma applyUpdate_description_absent (b : ItemUpdate) (r : Item) (h : b.description = none) :
    (applyUpdate b r).description = r.description := by
  obtain ⟨n, d, p⟩ := b
  simp only at h
  subst h
  cases n <;> cases p <;> rfl

lemma applyUpdate_description_present (b : ItemUpdate) (r : Item) (v : Option String)
    (h : b.description = some v) : (applyUpdate b r).description = v := by
  obtain ⟨n, d, p⟩ := b
  simp only at h
  subst h
  cases n <;> cases p <;> rfl

lemma applyUpdate_price_absent (b : ItemUpdate) (r : Item) (h : b.price = none) :
    (applyUpdate b r).price = r.price := by
  obtain ⟨n, d, p⟩ := b
  simp only at h
  subst h
  cases n <;> cases d <;> rfl

lemma applyUpdate_price_present (b : ItemUpdate) (r : Item) (v : Option ℚ)
    (h : b.price = some v) : (applyUpdate b r).price = v := by
  obtain ⟨n, d, p⟩ := b
  simp only at h
  subst h
  cases n <;> cases d <;> rfl

lemma validDB_update (i : Int) (b : ItemUpdate) (db : DB) (h : ValidDB db) :
    ValidDB (update_item i b db).1 := by
  rw [update_item]
  cases hp : pkGet i db with
  | none => exact h
  | some row =>
    simp only
    split
    · exact h
    · intro r hr
      rcases mem_setRow hr with hm | hm
      · exact h r hm
      · subst hm
        constructor
        · intro hn
          rename_i hguard
          exact hguard (Or.inl hn)
        · intro hpz
          rename_i hguard
          exact hguard (Or.inr hpz)

lemma validDB_handle (cfg : String) (req : Request) (hdr : Option String) (db : DB)
    (h : ValidDB db) : ValidDB (handle cfg req hdr db).1 := by
  cases req with
  | root => exact h
  | health => exact h
  | listItems s l => exact h
  | getItem i => exact h
  | createItem b =>
    cases b with
    | none => exact h
    | some b =>
      intro r hr
      rcases List.mem_append.mp hr with hm | hm
      · exact h r hm
      · have := List.mem_singleton.mp hm
        subst this
        exact ⟨by simp, by simp⟩
  | updateItem i b =>
    cases b with
    | none => exact h
    | some b => exact validDB_update i b db h
  | deleteItem i =>
    show ValidDB (match verify_api_key cfg hdr with
      | .error _ => (db, errResp 401 "Invalid or missing API key")
      | .ok _ => delete_item i db).1
    cases verify_api_key cfg hdr with
    | error e => exact h
    | ok k =>
      rw [delete_item]
      cases hp : pkGet i db with
      | none => exact h
      | some row =>
        intro r hr
        exact h r ((List.eraseP_sublist db).subset hr)

lemma validDB_run (cfg : String) (reqs : List (Request × Option String)) (db : DB)
    (h : ValidDB db) : ValidDB (run cfg reqs db) := by
  induction reqs generalizing db with
  | nil => exact h
  | cons rh rest ih =>
    obtain ⟨req, hdr⟩ := rh
    exact ih (handle cfg req hdr db).1 (validDB_handle cfg req hdr db h)

/-! Claim theorems. -/

/-- C1 counterexample: the PATCH body that carries only the field name,
explicitly set to null, on the stored item 1.  The original claim demands
that the response reflect the item with the provided field changed; the
application instead answers 500 with no item body, and the stored item is
completely unchanged. -/
theorem patch_null_name_not_applied_cex :
    (update_item 1 { name := some none, description := none, price := none } [obj1]).2.status = 500 ∧
    (update_item 1 { name := some none, description := none, price := none } [obj1]).2.item = none ∧
    (update_item 1 { name := some none, description := none, price := none } [obj1]).2.item ≠
      some (item_to_dict (applyUpdate { name := some none, description := none, price := none } obj1)) ∧
    (update_item 1 { name := some none, description := none, price := none } [obj1]).1 = [obj1] := by
  decide

/-- C1 (amended): for every stored item and every PATCH /items/{id} request
body, when the applied update keeps name and price non-null the update
applies only the fields present in the request body — every absent field
(name, description, price, and id and category, which no body can carry)
keeps exactly its previous value, every present field takes the body's
value, and the response reflects the updated item; a body whose applied
update nulls name or price is instead rejected by the NOT NULL constraint:
the application answers 500 and the item is left completely unchanged. -/
theorem patch_updates_only_present_fields
    (item_id : Int) (b : ItemUpdate) (db : DB) (row : Item)
    (hfind : pkGet item_id db = some row) :
    (¬((applyUpdate b row).name = none ∨ (applyUpdate b row).price = none) →
      (update_item item_id b db).2.status = 200 ∧
      (update_item item_id b db).2.item = some (item_to_dict (applyUpdate b row)) ∧
      pkGet item_id (update_item item_id b db).1 = some (applyUpdate b row) ∧
      (b.name = none → (applyUpdate b row).name = row.name) ∧
      (∀ v, b.name = some v → (applyUpdate b row).name = v) ∧
      (b.description = none → (applyUpdate b row).description = row.description) ∧
      (∀ v, b.description = some v → (applyUpdate b row).description = v) ∧
      (b.price = none → (applyUpdate b row).price = row.price) ∧
      (∀ v, b.price = some v → (applyUpdate b row).price = v) ∧
      (applyUpdate b row).id = row.id ∧
      (applyUpdate b row).category = row.category) ∧
    ((applyUpdate b row).name = none ∨ (applyUpdate b row).price = none →
      (update_item item_id b db).2.status = 500 ∧
      (update_item item_id b db).1 = db ∧
      (update_item item_id b db).2.item = none) := by
  constructor
  · intro hok
    have hrow : update_item item_id b db =
        (setRow item_id (applyUpdate b row) db,
          { status := 200, item := some (item_to_dict (applyUpdate b row)) }) := by
      unfold update_item
      rw [hfind]
      simp only [if_neg hok]
    refine ⟨by rw [hrow], by rw [hrow], ?_, applyUpdate_name_absent b row,
      fun v hv => applyUpdate_name_present b row v hv,
      applyUpdate_description_absent b row,
      fun v hv => applyUpdate_description_present b row v hv,
      applyUpdate_price_absent b row,
      fun v hv => applyUpdate_price_present b row v hv,
      applyUpdate_id b row, applyUpdate_category b row⟩
    rw [hrow]
    exact pkGet_setRow_self (applyUpdate b row) hfind
      (by rw [applyUpdate_id]; exact pkGet_eq_id hfind)
  · intro hbad
    have hrow : update_item item_id b db = (db, errResp 500 "Internal Server Error") := by
      unfold update_item
      rw [hfind]
      simp only [if_pos hbad]
    rw [hrow]
    exact ⟨rfl, rfl, rfl⟩

/-- Witness for C1: patching item 2 of the sample table with a body that
only carries price applies just that field; patching it with an explicit
null name is rejected and changes nothing. -/
theorem patch_updates_only_present_fields_witness :
    ((update_item 2 { name := none, description := none, price := some (some 9) } dbA).2.status = 200 ∧
     (update_item 2 { name := none, description := none, price := some (some 9) } dbA).2.item =
       some (item_to_dict (applyUpdate { name := none, description := none, price := some (some 9) } obj2)) ∧
     (applyUpdate { name := none, description := none, price := some (some 9) } obj2).name = obj2.name) ∧
    ((update_item 2 { name := some none, description := none, price := none } dbA).2.status = 500 ∧
     (update_item 2 { name := some none, description := none, price := none } dbA).1 = dbA) := by
  have h := patch_updates_only_present_fields 2
    { name := none, description := none, price := some (some 9) } dbA obj2 (by decide)
  have hg := h.1 (by decide)
  have h2 := patch_updates_only_present_fields 2
    { name := some none, description := none, price := none } dbA obj2 (by decide)
  have hb := h2.2 (by decide)
  exact ⟨⟨hg.1, hg.2.1, hg.2.2.2.1 rfl⟩, hb.1, hb.2.1⟩

/-- C2: Creation round-trip: for every valid create body, POST /items
returns 201 with an id, and GET /items/{id} with that id on the resulting
table returns exactly the submitted name, description and price; when the
body omits description (Pydantic default null) the returned description is
null. -/
theorem create_then_get_round_trip (b : ItemCreate) (db : DB) :
    (create_item b db).2.status = 201 ∧
    ∃ d : ItemDict,
      (create_item b db).2.item = some d ∧
      get_item d.id (create_item b db).1 = { status := 200, item := some d } ∧
      d.name = some b.name ∧ d.description = b.description ∧ d.price = some b.price ∧
      (b.description = none → d.description = none) := by
  refine ⟨rfl, ?_⟩
  refine ⟨item_to_dict { id := newRowid db, name := some b.name, description := b.description, price := some b.price, category := none }, rfl, ?_, rfl, rfl, rfl, fun h => h⟩
  show get_item (newRowid db) (db ++ [{ id := newRowid db, name := some b.name, description := b.description, price := some b.price, category := none }]) = _
  unfold get_item
  rw [pkGet_append_new db _ rfl]

/-- Witness for C2: creating a concrete item on the sample table. -/
theorem create_then_get_round_trip_witness :
    (create_item { name := "D", description := none, price := 5 } dbA).2.status = 201 ∧
    ∃ d : ItemDict,
      (create_item { name := "D", description := none, price := 5 } dbA).2.item = some d ∧
      get_item d.id (create_item { name := "D", description := none, price := 5 } dbA).1 =
        { status := 200, item := some d } ∧
      d.name = some "D" ∧ d.description = none ∧ d.price = some 5 ∧
      ((none : Option String) = none → d.description = none) :=
  create_then_get_round_trip { name := "D", description := none, price := 5 } dbA

/-- C3 counterexample: with one stored item, skip = 0 and limit = -1, the
endpoint returns the item (SQLite treats a negative LIMIT as no limit),
whereas the slice items[0 : 0+(-1)] claimed for every integer limit is
empty, and the result is not "at most limit items". -/
theorem list_items_negative_limit_cex :
    (list_items 0 (-1) [obj1]).items = [item_to_dict obj1] ∧
    (pySlice 0 (0 + -1) ([obj1] : DB)).map item_to_dict = [] ∧
    (list_items 0 (-1) [obj1]).items ≠ (pySlice 0 (0 + -1) ([obj1] : DB)).map item_to_dict := by
  decide

/-- C3 (amended): for nonnegative skip and limit, GET /items?skip&limit
returns exactly the Python slice items[skip : skip+limit] of the stored
items in storage order (equivalently, at most limit items starting at index
skip); a negative skip is treated as 0 and a negative limit as no limit. -/
theorem list_items_is_slice (skip limit : Int) (db : DB) :
    (0 ≤ skip → 0 ≤ limit →
      (list_items skip limit db).items = (pySlice skip (skip + limit) db).map item_to_dict ∧
      (list_items skip limit db).items = ((db.drop skip.toNat).take limit.toNat).map item_to_dict ∧
      (list_items skip limit db).items.length ≤ limit.toNat) ∧
    (skip < 0 → list_items skip limit db = list_items 0 limit db) ∧
    (limit < 0 → (list_items skip limit db).items = (db.drop skip.toNat).map item_to_dict) := by
  refine ⟨?_, ?_, ?_⟩
  · intro hs hl
    have hnl : ¬ limit < 0 := not_lt.mpr hl
    have hmain : pySlice skip (skip + limit) db = (db.drop skip.toNat).take limit.toNat := by
      rw [pySlice]
      simp only [pySliceIdx, if_neg (not_lt.mpr (add_nonneg hs hl)), if_neg (not_lt.mpr hs),
        Int.toNat_add hs hl]
      by_cases hSn : skip.toNat ≤ db.length
      · rw [min_eq_left hSn]
        have h1 : db.take (min (skip.toNat + limit.toNat) db.length) =
            db.take (skip.toNat + limit.toNat) := by
          apply List.take_eq_take.mpr
          rw [min_assoc, min_self]
        rw [h1, List.drop_take]
        congr 1
        omega
      · push_neg at hSn
        rw [min_eq_right (le_of_lt hSn)]
        have h2 : (db.take (min (skip.toNat + limit.toNat) db.length)).length ≤ db.length := by
          rw [List.length_take]
          exact min_le_right _ _
        rw [List.drop_eq_nil_of_le h2, List.drop_eq_nil_of_le (le_of_lt hSn), List.take_nil]
    refine ⟨?_, ?_, ?_⟩
    · simp only [list_items, if_neg hnl, hmain]
    · simp only [list_items, if_neg hnl]
    · simp only [list_items, if_neg hnl, List.length_map, List.length_take]
      exact min_le_left _ _
  · intro h
    simp [list_items, Int.toNat_of_nonpos (le_of_lt h)]
  · intro h
    simp [list_items, if_pos h]

/-- Witness for C3: skip 1, limit 2 on the three-item sample table. -/
theorem list_items_is_slice_witness :
    (list_items 1 2 dbA).items = (pySlice 1 (1 + 2) dbA).map item_to_dict ∧
    (list_items 1 2 dbA).items.length ≤ (2 : Int).toNat := by
  have h := (list_items_is_slice 1 2 dbA).1 (by decide) (by decide)
  exact ⟨h.1, h.2.2⟩

lemma verify_api_key_ok (cfg : String) : verify_api_key cfg (some cfg) = Except.ok cfg := by
  rw [verify_api_key, if_neg]
  · rfl
  · push_neg
    exact ⟨Option.some_ne_none cfg, rfl⟩

lemma update_item_500_iff (i : Int) (b : ItemUpdate) (db : DB) :
    (update_item i b db).2.status = 500 ↔
      ∃ row, pkGet i db = some row ∧
        ((applyUpdate b row).name = none ∨ (applyUpdate b row).price = none) := by
  unfold update_item
  cases hp : pkGet i db with
  | none => simp [errResp]
  | some row =>
    simp only
    split
    · rename_i hguard
      exact Iff.intro (fun h => Exists.intro row ⟨rfl, hguard⟩) (fun h => rfl)
    · rename_i hguard
      simp only [Option.some.injEq]
      constructor
      · intro h
        cases h
      · rintro ⟨row', hrr, hbad⟩
        subst hrr
        exact absurd hbad hguard

lemma get_item_status (i : Int) (db : DB) :
    (get_item i db).status = 200 ∨ (get_item i db).status = 404 := by
  unfold get_item
  cases pkGet i db <;> simp [errResp]

lemma update_item_status (i : Int) (b : ItemUpdate) (db : DB) :
    (update_item i b db).2.status = 200 ∨ (update_item i b db).2.status = 404 ∨
      (update_item i b db).2.status = 500 := by
  unfold update_item
  cases pkGet i db with
  | none => simp [errResp]
  | some row =>
    simp only
    split <;> simp [errResp]

lemma delete_item_status (i : Int) (db : DB) :
    (delete_item i db).2.status = 204 ∨ (delete_item i db).2.status = 404 := by
  unfold delete_item
  cases pkGet i db <;> simp [errResp]

/-- C4: GET /items/{id} and PATCH /items/{id} (for every parsed request
body) respond 404 with detail "Item not found" exactly when no item with
that id exists, and so does DELETE /items/{id} when a valid API key is
supplied. -/
theorem not_found_iff_absent (cfg : String) (i : Int) (b : ItemUpdate) (db : DB) :
    (((get_item i db).status = 404 ∧ (get_item i db).detail = some "Item not found") ↔
      pkGet i db = none) ∧
    (((update_item i b db).2.status = 404 ∧
      (update_item i b db).2.detail = some "Item not found") ↔ pkGet i db = none) ∧
    (((handle cfg (.deleteItem i) (some cfg) db).2.status = 404 ∧
      (handle cfg (.deleteItem i) (some cfg) db).2.detail = some "Item not found") ↔
      pkGet i db = none) := by
  cases hp : pkGet i db with
  | none =>
    refine ⟨?_, ?_, ?_⟩
    · simp [get_item, hp, errResp]
    · unfold update_item
      rw [hp]
      simp [errResp]
    · simp [handle, verify_api_key_ok, delete_item, hp, errResp]
  | some row =>
    refine ⟨?_, ?_, ?_⟩
    · simp [get_item, hp, errResp]
    · unfold update_item
      rw [hp]
      simp only
      split <;> simp [errResp]
    · simp [handle, verify_api_key_ok, delete_item, hp, errResp]

/-- Witness for C4: item 2 exists in the sample table and item 99 does not. -/
theorem not_found_iff_absent_witness :
    (((get_item 99 dbA).status = 404 ∧ (get_item 99 dbA).detail = some "Item not found") ↔
      pkGet 99 dbA = none) ∧
    (((get_item 2 dbA).status = 404 ∧ (get_item 2 dbA).detail = some "Item not found") ↔
      pkGet 2 dbA = none) :=
  ⟨(not_found_iff_absent "dev-key-123" 99 { name := none, description := none, price := none } dbA).1,
   (not_found_iff_absent "dev-key-123" 2 { name := none, description := none, price := none } dbA).1⟩

/-- C5: DELETE /items/{id} is the only endpoint with the authentication
dependency: it answers 401 exactly when the X-API-Key header is missing or
different from the configured API_KEY; when the key matches and the item
exists it deletes that item and returns 204; every other endpoint ignores
the header entirely (its response and effect do not depend on it) and never
answers 401. -/
theorem delete_only_auth_endpoint (cfg : String) (i : Int) (hdr h2 : Option String)
    (db : DB) (req : Request) :
    ((handle cfg (.deleteItem i) hdr db).2.status = 401 ↔ (hdr = none ∨ hdr ≠ some cfg)) ∧
    (hdr = some cfg → ∀ row, pkGet i db = some row →
      (handle cfg (.deleteItem i) hdr db).2.status = 204 ∧
      (handle cfg (.deleteItem i) hdr db).1 = db.eraseP (fun r => decide (r.id = i))) ∧
    (usesAuth req = false →
      handle cfg req hdr db = handle cfg req h2 db ∧
      (handle cfg req hdr db).2.status ≠ 401) := by
  refine ⟨?_, ?_, ?_⟩
  · by_cases hc : hdr = none ∨ hdr ≠ some cfg
    · simp only [handle, verify_api_key, if_pos hc, errResp]
      simpa using hc
    · have hv : verify_api_key cfg hdr = Except.ok (hdr.getD "") := by
        rw [verify_api_key, if_neg hc]
      simp only [handle, hv]
      rcases delete_item_status i db with h | h <;> rw [h] <;> simp [hc]
  · intro hcfg row hrow
    subst hcfg
    simp [handle, verify_api_key_ok, delete_item, hrow]
  · intro hreq
    cases req with
    | root => exact ⟨rfl, by simp [handle]⟩
    | health => exact ⟨rfl, by simp [handle]⟩
    | listItems s l => exact ⟨rfl, by simp [handle, list_items]⟩
    | getItem j =>
      refine ⟨rfl, ?_⟩
      show (get_item j db).status ≠ 401
      rcases get_item_status j db with h | h <;> rw [h] <;> decide
    | createItem b =>
      cases b with
      | none => exact ⟨rfl, by simp [handle, errResp]⟩
      | some b => exact ⟨rfl, by simp [handle, create_item]⟩
    | updateItem j b =>
      cases b with
      | none => exact ⟨rfl, by simp [handle, errResp]⟩
      | some b =>
        refine ⟨rfl, ?_⟩
        show (update_item j b db).2.status ≠ 401
        rcases update_item_status j b db with h | h | h <;> rw [h] <;> decide
    | deleteItem j => simp [usesAuth] at hreq

/-- Witness for C5: valid key deletes item 2; root ignores the header. -/
theorem delete_only_auth_endpoint_witness :
    (handle "dev-key-123" (.deleteItem 2) (some "dev-key-123") dbA).2.status = 204 ∧
    (handle "dev-key-123" (.deleteItem 2) (some "dev-key-123") dbA).1 =
      dbA.eraseP (fun r => decide (r.id = 2)) ∧
    handle "dev-key-123" .root (some "wrong") dbA = handle "dev-key-123" .root none dbA := by
  have h := delete_only_auth_endpoint "dev-key-123" 2 (some "dev-key-123") none dbA .root
  have h204 := h.2.1 rfl obj2 (by decide)
  have h2 := delete_only_auth_endpoint "dev-key-123" 2 (some "wrong") none dbA .root
  exact ⟨h204.1, h204.2, (h2.2.2 rfl).1⟩

/-- C10: a DELETE /items/{id} request whose X-API-Key header is missing or
wrong answers 401 regardless of whether the item exists, and leaves the
items table unchanged (the dependency raises before the handler body
runs). -/
theorem unauthorized_delete_leaves_table (cfg : String) (i : Int) (hdr : Option String)
    (db : DB) (h : hdr = none ∨ hdr ≠ some cfg) :
    (handle cfg (.deleteItem i) hdr db).2.status = 401 ∧
    (handle cfg (.deleteItem i) hdr db).1 = db := by
  simp [handle, verify_api_key, if_pos h, errResp]

/-- Witness for C10: missing header on an id that exists, wrong header on an
id that does not. -/
theorem unauthorized_delete_leaves_table_witness :
    ((handle "dev-key-123" (.deleteItem 2) none dbA).2.status = 401 ∧
      (handle "dev-key-123" (.deleteItem 2) none dbA).1 = dbA) ∧
    ((handle "dev-key-123" (.deleteItem 99) (some "wrong") dbA).2.status = 401 ∧
      (handle "dev-key-123" (.deleteItem 99) (some "wrong") dbA).1 = dbA) :=
  ⟨unauthorized_delete_leaves_table "dev-key-123" 2 none dbA (Or.inl rfl),
   unauthorized_delete_leaves_table "dev-key-123" 99 (some "wrong") dbA (Or.inr (by decide))⟩

/-- C7: every operation preserves the invariant that stored items have
non-null name and price (create always writes both, a partial update whose
result would null one of them is rejected by the NOT NULL constraint and
changes nothing, delete only removes rows), so no sequence of API requests
started from the empty table can produce a stored item whose name or price
is null. -/
theorem name_price_never_null (cfg : String) (req : Request) (hdr : Option String)
    (db : DB) (reqs : List (Request × Option String)) :
    (ValidDB db → ValidDB (handle cfg req hdr db).1) ∧
    ValidDB (run cfg reqs []) := by
  refine ⟨validDB_handle cfg req hdr db, ?_⟩
  apply validDB_run
  intro r hr
  cases hr

/-- Witness for C7: one step from the valid sample table, and a concrete
request sequence from the empty table (create, then a null-name patch that
must not corrupt the table). -/
theorem name_price_never_null_witness :
    ValidDB (handle "dev-key-123" (.getItem 1) none dbA).1 ∧
    ValidDB (run "dev-key-123"
      [(.createItem (some { name := "A", description := none, price := 1 }), none),
       (.updateItem 1 (some { name := some none, description := none, price := none }), none)]
      []) := by
  have h := name_price_never_null "dev-key-123" (.getItem 1) none dbA
    [(.createItem (some { name := "A", description := none, price := 1 }), none),
     (.updateItem 1 (some { name := some none, description := none, price := none }), none)]
  exact ⟨h.1 (by decide), h.2⟩

/-- C9: with both query parameters left at their defaults (skip 0,
limit 10), GET /items returns exactly the first ten stored items, hence at
most ten; when more than ten are stored the parameterless request silently
truncates the result to the first ten. -/
theorem default_list_truncates_to_ten (db : DB) :
    (list_items_default db).items = (db.take 10).map item_to_dict ∧
    (list_items_default db).items.length ≤ 10 ∧
    (10 < db.length → (list_items_default db).items.length = 10) := by
  have hitems : (list_items_default db).items = (db.take 10).map item_to_dict := by
    simp [list_items_default, list_items]
  refine ⟨hitems, ?_, ?_⟩
  · rw [hitems, List.length_map, List.length_take]
    exact min_le_left _ _
  · intro h
    rw [hitems, List.length_map, List.length_take]
    omega

/-- Witness for C9: the eleven-row sample table is truncated to ten. -/
theorem default_list_truncates_to_ten_witness :
    (list_items_default dbBig).items.length = 10 :=
  (default_list_truncates_to_ten dbBig).2.2 (by decide)

/-- C8 counterexample: a PATCH whose body explicitly sets name to null on an
existing item makes the commit violate the NOT NULL constraint; the
IntegrityError escapes the handler and the application answers 500, which
is none of 422, 404, 401. -/
theorem error_status_500_cex :
    (handle "dev-key-123"
      (.updateItem 1 (some { name := some none, description := none, price := none }))
      none [obj1]).2.status = 500 ∧
    (handle "dev-key-123"
      (.updateItem 1 (some { name := some none, description := none, price := none }))
      none [obj1]).2.status ≠ 422 ∧
    (handle "dev-key-123"
      (.updateItem 1 (some { name := some none, description := none, price := none }))
      none [obj1]).2.status ≠ 404 ∧
    (handle "dev-key-123"
      (.updateItem 1 (some { name := some none, description := none, price := none }))
      none [obj1]).2.status ≠ 401 := by
  decide

/-- C8 (amended): every response status is one of 200/201/204 (success),
422 (validation), 404 (not found), 401 (unauthorized) or 500; 500 occurs
exactly for a PATCH with a parsed body on an existing item whose applied
update leaves name or price null (database NOT NULL violation), and no
request can produce any other error status. -/
theorem error_statuses_classified (cfg : String) (req : Request) (hdr : Option String)
    (db : DB) :
    ((handle cfg req hdr db).2.status = 200 ∨ (handle cfg req hdr db).2.status = 201 ∨
     (handle cfg req hdr db).2.status = 204 ∨ (handle cfg req hdr db).2.status = 401 ∨
     (handle cfg req hdr db).2.status = 404 ∨ (handle cfg req hdr db).2.status = 422 ∨
     (handle cfg req hdr db).2.status = 500) ∧
    ((handle cfg req hdr db).2.status = 500 →
      ∃ i b row, req = .updateItem i (some b) ∧ pkGet i db = some row ∧
        ((applyUpdate b row).name = none ∨ (applyUpdate b row).price = none)) := by
  cases req with
  | root =>
    refine ⟨Or.inl rfl, fun h => ?_⟩
    have h2 : (200 : Nat) = 500 := h
    omega
  | health =>
    refine ⟨Or.inl rfl, fun h => ?_⟩
    have h2 : (200 : Nat) = 500 := h
    omega
  | listItems s l =>
    refine ⟨Or.inl rfl, fun h => ?_⟩
    have h2 : (200 : Nat) = 500 := h
    omega
  | getItem i =>
    have hs := get_item_status i db
    constructor
    · rcases hs with h | h
      · exact Or.inl h
      · exact Or.inr (Or.inr (Or.inr (Or.inr (Or.inl h))))
    · intro h500
      have h2 : (get_item i db).status = 500 := h500
      rcases hs with h | h <;> omega
  | createItem b =>
    cases b with
    | none =>
      refine ⟨Or.inr (Or.inr (Or.inr (Or.inr (Or.inr (Or.inl rfl))))), fun h => ?_⟩
      have h2 : (422 : Nat) = 500 := h
      omega
    | some b =>
      refine ⟨Or.inr (Or.inl rfl), fun h => ?_⟩
      have h2 : (201 : Nat) = 500 := h
      omega
  | updateItem i b =>
    cases b with
    | none =>
      refine ⟨Or.inr (Or.inr (Or.inr (Or.inr (Or.inr (Or.inl rfl))))), fun h => ?_⟩
      have h2 : (422 : Nat) = 500 := h
      omega
    | some b =>
      have hs := update_item_status i b db
      have h500iff := update_item_500_iff i b db
      have hred : (handle cfg (.updateItem i (some b)) hdr db).2 = (update_item i b db).2 := rfl
      constructor
      · rw [hred]
        rcases hs with h | h | h
        · exact Or.inl h
        · exact Or.inr (Or.inr (Or.inr (Or.inr (Or.inl h))))
        · exact Or.inr (Or.inr (Or.inr (Or.inr (Or.inr (Or.inr h)))))
      · intro h500
        rw [hred] at h500
        obtain ⟨row, hrow, hbad⟩ := h500iff.mp h500
        exact ⟨i, b, row, rfl, hrow, hbad⟩
  | deleteItem i =>
    simp only [handle]
    cases hv : verify_api_key cfg hdr with
    | error e =>
      refine ⟨Or.inr (Or.inr (Or.inr (Or.inl rfl))), fun h => ?_⟩
      have h2 : (401 : Nat) = 500 := h
      omega
    | ok k =>
      have hs := delete_item_status i db
      constructor
      · rcases hs with h | h
        · exact Or.inr (Or.inr (Or.inl h))
        · exact Or.inr (Or.inr (Or.inr (Or.inr (Or.inl h))))
      · intro h500
        have h2 : (delete_item i db).2.status = 500 := h500
        rcases hs with h | h <;> omega

/-- Witness for C8: a GET on a missing id gives one of the listed statuses. -/
theorem error_statuses_classified_witness :
    ((handle "dev-key-123" (.getItem 99) none dbA).2.status = 200 ∨
     (handle "dev-key-123" (.getItem 99) none dbA).2.status = 201 ∨
     (handle "dev-key-123" (.getItem 99) none dbA).2.status = 204 ∨
     (handle "dev-key-123" (.getItem 99) none dbA).2.status = 401 ∨
     (handle "dev-key-123" (.getItem 99) none dbA).2.status = 404 ∨
     (handle "dev-key-123" (.getItem 99) none dbA).2.status = 422 ∨
     (handle "dev-key-123" (.getItem 99) none dbA).2.status = 500) :=
  (error_statuses_classified "dev-key-123" (.getItem 99) none dbA).1

lemma colPrices_length (db : DB) (h : ∀ r ∈ db, r.price ≠ none) :
    (colPrices db).length = db.length := by
  induction db with
  | nil => rfl
  | cons r rs ih =>
    have hr := h r (List.mem_cons_self r rs)
    cases hq : r.price with
    | none => exact absurd hq hr
    | some q =>
      have : colPrices (r :: rs) = q :: colPrices rs := by
        simp [colPrices, List.filterMap_cons, hq]
      rw [this, List.length_cons, List.length_cons,
        ih (fun x hx => h x (List.mem_cons.mpr (Or.inr hx)))]

/-- C6 counterexample: on the sample table with prices 1, 2, 2 the database
average is exactly 5/3, but get_stats returns average_price 1.67 — the
value rounded to two decimals, not the aggregate value itself. -/
theorem get_stats_rounds_average_cex :
    get_stats dbA = Except.ok { total_items := 3, average_price := 167/100, min_price := some 1, max_price := some 2 } ∧
    sqlAvg dbA = some (5/3) ∧ (167/100 : ℚ) ≠ 5/3 := by
  have h1 : sqlAvg dbA = some (5/3) := by
    simp [sqlAvg, colPrices, dbA, obj1, obj2, obj3]
    norm_num
  have h2 : roundTo2 (5/3) = 167/100 := by
    have h : ((5:ℚ)/3 * 100) = 500/3 := by norm_num
    have hf : (⌊(500/3 : ℚ)⌋ : Int) = 166 := by norm_num [Int.floor_eq_iff]
    rw [roundTo2, h, roundHalfEven, hf]
    norm_num
  have hm : sqlMin dbA = some 1 := by
    simp [sqlMin, colPrices, dbA, obj1, obj2, obj3]
  have hx : sqlMax dbA = some 2 := by
    simp [sqlMax, colPrices, dbA, obj1, obj2, obj3]
  refine ⟨?_, h1, by norm_num⟩
  have hlen : dbA.length = 3 := by simp [dbA]
  rw [get_stats, h1, hm, hx, hlen]
  simp [h2]

/-- C6 (amended): get_stats returns the item count, the database average of
the stored prices rounded to two decimal places, and the exact minimum and
maximum, except that zero rows give total_items 0, average_price 0.0 and
null min_price and max_price. -/
theorem get_stats_spec (db : DB) (h : ∀ r ∈ db, r.price ≠ none) :
    (db = [] → get_stats db = Except.ok { total_items := 0, average_price := 0, min_price := none, max_price := none }) ∧
    (db ≠ [] → ∃ s, get_stats db = Except.ok s ∧
      s.total_items = db.length ∧
      s.average_price = roundTo2 ((colPrices db).sum / (db.length : ℚ)) ∧
      (∃ m, s.min_price = some m ∧ m ∈ colPrices db ∧ ∀ p ∈ colPrices db, m ≤ p) ∧
      (∃ m, s.max_price = some m ∧ m ∈ colPrices db ∧ ∀ p ∈ colPrices db, p ≤ m)) := by
  constructor
  · intro hdb
    subst hdb
    rfl
  · intro hne
    have hlen : (colPrices db).length = db.length := colPrices_length db h
    have hlen0 : db.length ≠ 0 := by
      intro h0
      exact hne (List.length_eq_zero.mp h0)
    cases hcp : colPrices db with
    | nil =>
      exfalso
      rw [hcp] at hlen
      exact hlen0 hlen.symm
    | cons p ps =>
      have hqlen : ((p :: ps).length : ℚ) = (db.length : ℚ) := by
        rw [hcp] at hlen
        rw [hlen]
      refine ⟨{ total_items := db.length, average_price := roundTo2 ((p :: ps).sum / ((p :: ps).length : ℚ)), min_price := some (ps.foldl min p), max_price := some (ps.foldl max p) }, ?_, rfl, ?_, ?_, ?_⟩
      · unfold get_stats sqlAvg sqlMin sqlMax
        rw [hcp, if_neg hlen0]
      · show roundTo2 ((p :: ps).sum / ((p :: ps).length : ℚ)) = _
        rw [hqlen]
      · exact ⟨ps.foldl min p, rfl, foldl_min_mem ps p, fun q hq => foldl_min_le ps p q hq⟩
      · exact ⟨ps.foldl max p, rfl, foldl_max_mem ps p, fun q hq => foldl_max_le ps p q hq⟩

/-- Witness for C6: the amended statement evaluated on the sample table. -/
theorem get_stats_spec_witness :
    ∃ s, get_stats dbA = Except.ok s ∧
      s.total_items = dbA.length ∧
      s.average_price = roundTo2 ((colPrices dbA).sum / (dbA.length : ℚ)) ∧
      (∃ m, s.min_price = some m ∧ m ∈ colPrices dbA ∧ ∀ p ∈ colPrices dbA, m ≤ p) ∧
      (∃ m, s.max_price = some m ∧ m ∈ colPrices dbA ∧ ∀ p ∈ colPrices dbA, p ≤ m) :=
  (get_stats_spec dbA (by decide)).2 (by decide)
